import Mathlib

/-!
The http-proxy filter chain and forwarder.

A shallow embedding of `filter/filter.go` and `forward/forward.go`.

Go code with side effects is embedded as explicit state passing.  Every call
that the embedded code makes on one of its collaborators (a filter, the error
handler, the transport, the logger, the response writer) is appended to a
trace, so that "is invoked", "exactly once" and "before" become statements
about a list of events.
-/

namespace HttpProxy

/-! ## filter/filter.go -/

namespace filter

/-- The three results of `Filter.ServeHTTP`: `(ok bool, err error, errdesc string)`.
The Go `error` interface value is `none` for `nil`. -/
structure Result (E : Type) where
  ok : Bool
  err : Option E
  errdesc : String
deriving DecidableEq, Repr

/-- A `Filter` (filter.go:11-17).  `W` and `R` are the references
`w http.ResponseWriter` and `req *http.Request`; what they point to lives in
the world state `σ`, which a filter may read and change. -/
abbrev Filter (σ W R E : Type) := W → R → σ → Result E × σ

/-- The error handler `utils.DefaultHandler.ServeHTTP(w, req, err, desc)`.  Its
package is not part of the sources, so it is any state transformer. -/
abbrev ErrorHandler (σ W R E : Type) := W → R → E → String → σ → σ

/-- The calls made by `filterChain.ServeHTTP`, in program order.  `filter i w req`
is the call `filter.ServeHTTP(w, req)` on the filter at position `i` of
`chain.filters`. -/
inductive Event (W R E : Type) where
  | filter (idx : Nat) (w : W) (req : R)
  | errHandler (w : W) (req : R) (err : E) (desc : String)
deriving DecidableEq, Repr

/-- The body of the `for _, filter := range chain.filters` loop (filter.go:32-40),
entered with the filters still to visit; `idx` is the position of the first of
them.

* line 33 calls the filter;
* lines 34-35: `err != nil` calls the error handler, and the `if` statement ends
  there, so the loop goes on to the next filter;
* lines 36-38: `err == nil` and `!ok` returns;
* otherwise the loop goes on. -/
def serveLoop {σ W R E : Type} (handler : ErrorHandler σ W R E) (w : W) (req : R) :
    Nat → List (Filter σ W R E) → σ × List (Event W R E) → σ × List (Event W R E)
  | _, [], st => st
  | idx, f :: rest, (s, tr) =>
    let out := f w req s
    let tr1 := tr ++ [Event.filter idx w req]
    match out.1.err with
    | some e =>
      serveLoop handler w req (idx + 1) rest
        (handler w req e out.1.errdesc out.2, tr1 ++ [Event.errHandler w req e out.1.errdesc])
    | none =>
      if out.1.ok = false then (out.2, tr1)
      else serveLoop handler w req (idx + 1) rest (out.2, tr1)

/-- The type `filterChain` (filter.go:21-23). -/
structure filterChain (σ W R E : Type) where
  filters : List (Filter σ W R E)

/-- The constructor `NewChain(filters ...Filter)` (filter.go:27-29). -/
def NewChain {σ W R E : Type} (filters : List (Filter σ W R E)) : filterChain σ W R E :=
  { filters := filters }

/-- The method `(chain *filterChain) ServeHTTP(w, req)` (filter.go:31-41), started in
world state `s` with an empty trace. -/
def ServeHTTP {σ W R E : Type} (handler : ErrorHandler σ W R E)
    (chain : filterChain σ W R E) (w : W) (req : R) (s : σ) : σ × List (Event W R E) :=
  serveLoop handler w req 0 chain.filters (s, [])

/-- Every filter of `fs`, run one after the other from state `s` on `(w, req)`,
returns `ok = true` and `err = nil`. -/
def allProceed {σ W R E : Type} (w : W) (req : R) : List (Filter σ W R E) → σ → Prop
  | [], _ => True
  | f :: fs, s => (f w req s).1.ok = true ∧ (f w req s).1.err = none ∧
      allProceed w req fs (f w req s).2

/-- The world state left by running the filters of `fs` one after the other. -/
def stateAfter {σ W R E : Type} (w : W) (req : R) : List (Filter σ W R E) → σ → σ
  | [], s => s
  | f :: fs, s => stateAfter w req fs (f w req s).2

/-- The events `filter idx`, `filter (idx+1)`, ..., `filter (idx+n-1)` on `(w, req)`. -/
def filterCalls {W R E : Type} (w : W) (req : R) (idx n : Nat) : List (Event W R E) :=
  (List.range n).map (fun k => Event.filter (idx + k) w req)

/-- A sample filter: records its call in the world state and proceeds. -/
def passFilter (name : String) : Filter (List String) String String String :=
  fun _ _ s => ({ ok := true, err := none, errdesc := "" }, s ++ [name])

/-- A sample filter: records its call in the world state and vetoes. -/
def vetoFilter (name : String) : Filter (List String) String String String :=
  fun _ _ s => ({ ok := false, err := none, errdesc := "" }, s ++ [name])

/-- A sample filter: records its call in the world state and returns
`(false, err, desc)` with a non-nil `err`. -/
def failFilter (name err desc : String) : Filter (List String) String String String :=
  fun _ _ s => ({ ok := false, err := some err, errdesc := desc }, s ++ [name])

/-- A sample error handler: records its call in the world state. -/
def sampleHandler : ErrorHandler (List String) String String String :=
  fun _ _ err desc s => s ++ ["handler(" ++ err ++ "," ++ desc ++ ")"]

end filter

/-! ## forward/forward.go -/

namespace forward

/-- A byte of a message body. -/
abbrev Byte := UInt8

/-- A Go `http.Header`, a `map[string][]string`, as its list of entries.  In a
source (ranged-over) map the order of the list is the order in which `range`
visits the entries, which Go leaves unspecified; a map has each key once. -/
abbrev Header := List (String × List String)

/-- The map read `vv, ok := h[k]`: `none` when `k` is not a key of `h`. -/
def Header.lookup : Header → String → Option (List String)
  | [], _ => none
  | (k', vv) :: rest, k => if k' = k then some vv else Header.lookup rest k

/-- The map read `h[k]`: the nil slice when `k` is not a key of `h`. -/
def Header.values (h : Header) (k : String) : List String :=
  (h.lookup k).getD []

/-- The map write `h[k] = vv`. -/
def Header.set : Header → String → List String → Header
  | [], k, vv => [(k, vv)]
  | (k', vv') :: rest, k, vv =>
    if k' = k then (k, vv) :: rest else (k', vv') :: Header.set rest k vv

/-- The keys of the map. -/
def Header.keys (h : Header) : List String := h.map Prod.fst

/-- The method `Header.Add(key, value)` of `net/http`:
`key = CanonicalMIMEHeaderKey(key); h[key] = append(h[key], value)`.
`canon` is `textproto.CanonicalMIMEHeaderKey`. -/
def Header.Add (canon : String → String) (h : Header) (key value : String) : Header :=
  let key := canon key
  h.set key (h.values key ++ [value])

/-- The function `copyHeaders(dst, src)` (forward.go:131-137): for every entry
`k, vv` of `src` and every `v` of `vv`, in order, `dst.Add(k, v)`. -/
def copyHeaders (canon : String → String) (dst src : Header) : Header :=
  src.foldl (fun d kvv => kvv.2.foldl (fun d v => Header.Add canon d kvv.1 v) d) dst

/-- Whether a byte may occur in a header field name (`validHeaderFieldByte` of
`net/textproto`: the token characters of RFC 7230). -/
def validHeaderFieldByte (c : Char) : Bool :=
  c.isAlphanum || "!#$%&*+-.^_|~".data.contains c || c = Char.ofNat 39 || c = Char.ofNat 96

/-- The letter-case pass of `textproto.CanonicalMIMEHeaderKey`: the first
letter and every letter after a hyphen in upper case, the others in lower case. -/
def canonLetters : Bool → List Char → List Char
  | _, [] => []
  | upper, c :: cs =>
    let c1 := if upper then c.toUpper else c.toLower
    c1 :: canonLetters (c1 = '-') cs

/-- The function `textproto.CanonicalMIMEHeaderKey`: a key holding a byte that is
not valid in a field name is returned unchanged, any other key has its letter
case normalised. -/
def canonicalMIMEHeaderKey (s : String) : String :=
  if s.data.all validHeaderFieldByte then String.mk (canonLetters true s.data) else s

/-- The type `url.Userinfo`. -/
structure Userinfo where
  username : String
  password : String
  passwordSet : Bool
deriving DecidableEq, Repr

/-- The type `url.URL`. -/
structure URL where
  Scheme : String
  Opaque : String
  User : Option Userinfo
  Host : String
  Path : String
  RawPath : String
  RawQuery : String
  Fragment : String
deriving DecidableEq, Repr

/-- The fields of `tls.ConnectionState` that forward.go reads. -/
structure ConnectionState where
  Version : Nat
  DidResume : Bool
  CipherSuite : Nat
  ServerName : String
deriving DecidableEq, Repr

/-- The three kinds of `io.ReadCloser` a `Body` field holds in this program. -/
inductive BodyKind where
  | noBody
  | stream
  | buffer
deriving DecidableEq, Repr

/-- An `io.ReadCloser` holding a message body.

* `noBody` is the value `http.NoBody`: every read returns `io.EOF`, `Close`
  returns nil.
* `stream chunks err closeErr` is a reader handed in from outside (by the server
  for a request, by the transport for a response), by what its calls are still
  to return: the byte slices of the reads that return a nil error, then `err` on
  every later read, where `none` is `io.EOF`; `closeErr` is what `Close` returns.
* `buffer data` is the `io.NopCloser` over an in-memory buffer that
  `httputil.drainBody` makes: the reads yield `data` and then `io.EOF`, `Close`
  returns nil. -/
inductive Body (E : Type) where
  | noBody
  | stream (chunks : List (List Byte)) (err : Option E) (closeErr : Option E)
  | buffer (data : List Byte)
deriving DecidableEq, Repr

/-- The kind of a reader. -/
def Body.kind {E : Type} : Body E → BodyKind
  | Body.noBody => BodyKind.noBody
  | Body.stream _ _ _ => BodyKind.stream
  | Body.buffer _ => BodyKind.buffer

/-- The bytes the reader yields before it reports `io.EOF` or an error. -/
def Body.bytes {E : Type} : Body E → List Byte
  | Body.noBody => []
  | Body.stream chunks _ _ => chunks.flatten
  | Body.buffer data => data

/-- The error that ends the reads of the reader, `none` for `io.EOF`. -/
def Body.readErr {E : Type} : Body E → Option E
  | Body.stream _ err _ => err
  | _ => none

/-- What `Close` returns on the reader, `none` for nil. -/
def Body.closeErr {E : Type} : Body E → Option E
  | Body.stream _ _ closeErr => closeErr
  | _ => none

/-- The type `http.Request`, as a handler receives it from the server: `URL` and
`Body` are never nil there, `TLS` is nil on a plaintext connection. -/
structure Request (E : Type) where
  Method : String
  URL : forward.URL
  Proto : String
  ProtoMajor : Int
  ProtoMinor : Int
  Header : forward.Header
  Body : forward.Body E
  ContentLength : Int
  TransferEncoding : List String
  Close : Bool
  Host : String
  Trailer : forward.Header
  RemoteAddr : String
  RequestURI : String
  TLS : Option ConnectionState
deriving DecidableEq, Repr

/-- The type `http.Response`, as `RoundTrip` returns it with a nil error. -/
structure Response (E : Type) where
  Status : String
  StatusCode : Int
  Proto : String
  ProtoMajor : Int
  ProtoMinor : Int
  Header : forward.Header
  Body : forward.Body E
  ContentLength : Int
  Close : Bool
deriving DecidableEq, Repr

/-- The function `cloneURL` (forward.go:140-146). -/
def cloneURL (i : URL) : URL :=
  let out := i
  match i.User with
  | some usr => { out with User := some usr }
  | none => out

/-- The method `Forwarder.cloneRequest(req, u)` (forward.go:97-127).  The
receiver is not read, and neither is `u`. -/
def cloneRequest {E : Type} (canon : String → String) (req : Request E) (_u : URL) :
    Request E :=
  -- forward.go:100  *outReq = *req
  let outReq := req
  -- forward.go:102-106
  let outReq := { outReq with Proto := "HTTP/1.1" }
  let outReq := { outReq with ProtoMajor := 1 }
  let outReq := { outReq with ProtoMinor := 1 }
  let outReq := { outReq with Close := false }
  -- forward.go:109-110
  let outReq := { outReq with Header := [] }
  let outReq := { outReq with Header := copyHeaders canon outReq.Header req.Header }
  -- forward.go:113-118
  let scheme := if req.TLS = none then "http" else "https"
  -- forward.go:119-124
  let outReq := { outReq with URL := cloneURL req.URL }
  let outReq := { outReq with URL := { outReq.URL with Scheme := scheme } }
  let outReq := { outReq with URL := { outReq.URL with Host := req.Host } }
  let outReq := { outReq with URL := { outReq.URL with Opaque := req.RequestURI } }
  let outReq := { outReq with URL := { outReq.URL with RawQuery := "" } }
  outReq

/-- Which request object a call is handed: the one `req` points to, or the one
`reqClone` points to. -/
inductive ReqRef where
  | req
  | reqClone
deriving DecidableEq, Repr

/-- The calls `Forwarder.ServeHTTP` makes, in program order, itself or inside the
library functions it runs.  A request argument is recorded by its reference and
by the value of the object at the call.  `Header` is the call `w.Header()`,
which returns the header map of the response writer; `WriteHeader` records that
map as it stands at the call.  `Close k` is a call of `Close` on a body reader
of kind `k`.  `Panic` is a run-time panic, which ends `ServeHTTP`. -/
inductive Event (E : Type) where
  | Debugf (format : String)
  | Errorf (format : String)
  | Infof (format : String)
  | RoundTrip (ref : ReqRef) (r : Request E)
  | errHandler (ref : ReqRef) (r : Request E) (err : E)
  | Header
  | WriteHeader (code : Int) (header : forward.Header)
  | Write (p : List Byte)
  | Close (k : BodyKind)
  | Panic (msg : String)
deriving DecidableEq, Repr

/-- A call of a method of the response writer `w`: `Header`, `WriteHeader` or `Write`. -/
def Event.isSinkCall {E : Type} : Event E → Bool
  | Event.Header => true
  | Event.WriteHeader _ _ => true
  | Event.Write _ => true
  | _ => false

/-- A call of `RoundTrip`. -/
def Event.isRoundTrip {E : Type} : Event E → Bool
  | Event.RoundTrip _ _ => true
  | _ => false

/-- A call of the error handler. -/
def Event.isErrHandler {E : Type} : Event E → Bool
  | Event.errHandler _ _ _ => true
  | _ => false

/-- A call of `Close` on a body reader. -/
def Event.isClose {E : Type} : Event E → Bool
  | Event.Close _ => true
  | _ => false

/-- The bytes handed to `w.Write` by the calls of a trace, in order. -/
def written {E : Type} : List (Event E) → List Byte
  | [] => []
  | Event.Write p :: rest => p ++ written rest
  | _ :: rest => written rest

/-- What `httputil.drainBody(b)` leaves behind: `field` is the reader the dump
stores in the `Body` field, `rest` is the reader `b` itself after the call, and
`calls` are the `Close` calls made on `b`. -/
structure Drained (E : Type) where
  field : Body E
  rest : Body E
  calls : List (Event E)

/-- The function `drainBody` of `net/http/httputil`, which `DumpRequest` and
`DumpResponse` run on the `Body` field when asked for the body.

* `b == http.NoBody`: nothing is read or closed, the field stays `http.NoBody`.
* Otherwise `buf.ReadFrom(b)` reads `b` to its end.  When a read fails,
  `drainBody` returns `(nil, b, err)`: the dump stores `b` back in the field and
  returns the error, which forward.go discards.  The bytes of `b` up to the
  failure have been consumed into the buffer and are dropped with it.
* Then `b.Close()` is called.  When it fails, `drainBody` again returns
  `(nil, b, err)`, and the field keeps the reader `b`, which is at its end.
* Otherwise `drainBody` returns two in-memory readers over the buffered bytes;
  the dump writes one out and stores the other in the field. -/
def drainBody {E : Type} (b : Body E) : Drained E :=
  match b with
  | Body.noBody =>
    { field := Body.noBody, rest := Body.noBody, calls := [] }
  | Body.stream _ (some e) ce =>
    { field := Body.stream [] (some e) ce, rest := Body.stream [] (some e) ce, calls := [] }
  | Body.stream _ none (some ce) =>
    { field := Body.stream [] none (some ce), rest := Body.stream [] none (some ce),
      calls := [Event.Close BodyKind.stream] }
  | Body.stream chunks none none =>
    { field := Body.buffer chunks.flatten, rest := Body.stream [] none none,
      calls := [Event.Close BodyKind.stream] }
  | Body.buffer data =>
    { field := Body.buffer data, rest := Body.buffer [], calls := [Event.Close BodyKind.buffer] }

/-- The request object after `httputil.DumpRequest(req, true)`. -/
def DumpRequest {E : Type} (req : Request E) : Request E :=
  { req with Body := (drainBody req.Body).field }

/-- The response object after `httputil.DumpResponse(resp, true)`. -/
def DumpResponse {E : Type} (resp : Response E) : Response E :=
  { resp with Body := (drainBody resp.Body).field }

/-- What the handler works on: the header map of the response writer
(`w.Header()`), the request object `req` points to, and the calls made so far. -/
structure World (E : Type) where
  header : Header
  req : Request E
  trace : List (Event E)
deriving DecidableEq, Repr

/-- The response writer `w`, by what `w.Write(p)` returns, `(n int, err error)`,
given the calls made so far.  It has no `ReadFrom` method. -/
structure ResponseWriter (E : Type) where
  Write : List (Event E) → List Byte → Int × Option E

/-- The type `Forwarder` (forward.go:14-19), by its transport: `roundTripper` is
what `f.roundTripper.RoundTrip` returns, a response with a nil error or an
error.  The logger `log` and the handler `errHandler` return nothing, their
calls are events; `next` is not read by `ServeHTTP`. -/
structure Forwarder (E : Type) where
  roundTripper : Request E → Except E (Response E)

/-- The copy loop of `io.Copy(w, src)` for a source without a `WriteTo` method,
over the reads that are left of `src`: every read of `nr > 0` bytes is handed to
`w.Write`; the loop ends at a write that returns an error or a count other than
`nr`, and at the read that returns `io.EOF` or an error.  The result is the
world and the byte count `written`. -/
def copyLoop {E : Type} (w : ResponseWriter E) :
    List (List Byte) → World E → Int → World E × Int
  | [], s, n => (s, n)
  | c :: rest, s, n =>
    if 0 < c.length then
      let r := w.Write s.trace c
      let s1 := { s with trace := s.trace ++ [Event.Write c] }
      let invalid : Bool := decide (r.1 < 0) || decide ((c.length : Int) < r.1)
      let nw : Int := if invalid then 0 else r.1
      if r.2.isSome || invalid then (s1, n + nw)
      else if (c.length : Int) ≠ nw then (s1, n + nw)
      else copyLoop w rest s1 (n + nw)
    else copyLoop w rest s n

/-- The call `io.Copy(w, src)`.  The result is the world and the byte count, or
`none` for the count when the call panics.

* `http.NoBody` has a `WriteTo` method that writes nothing.
* An in-memory buffer has the `WriteTo` method of `bytes.Buffer`: when the buffer
  is not empty it is handed to `w.Write` in one call, and a returned count above
  the length of the buffer is a panic.
* Any other reader goes through the copy loop. -/
def ioCopy {E : Type} (w : ResponseWriter E) (src : Body E) (s : World E) :
    World E × Option Int :=
  match src with
  | Body.noBody => (s, some 0)
  | Body.buffer data =>
    if 0 < data.length then
      let r := w.Write s.trace data
      let s1 := { s with trace := s.trace ++ [Event.Write data] }
      if (data.length : Int) < r.1 then (s1, none) else (s1, some r.1)
    else (s, some 0)
  | Body.stream chunks _ _ =>
    let out := copyLoop w chunks s 0
    (out.1, some out.2)

/-- Add one call to the trace. -/
def World.emit {E : Type} (s : World E) (e : Event E) : World E :=
  { s with trace := s.trace ++ [e] }

/-- The method `(f *Forwarder) ServeHTTP(w, req)` (forward.go:52-95). -/
def ServeHTTP {E : Type} (canon : String → String) (f : Forwarder E)
    (w : ResponseWriter E) (s : World E) : World E :=
  -- forward.go:53-54
  let s := { s with trace := s.trace ++ (drainBody s.req.Body).calls }
  let s := { s with req := DumpRequest s.req }
  let s := s.emit (Event.Debugf "Forward Middleware received request:\n%s")
  -- forward.go:57
  let reqClone := cloneRequest canon s.req s.req.URL
  -- forward.go:59-60; `reqClone.Body` is the reader `req.Body` too
  let s := { s with trace := s.trace ++ (drainBody reqClone.Body).calls }
  let s := { s with req := { s.req with Body := (drainBody reqClone.Body).rest } }
  let reqClone := DumpRequest reqClone
  let s := s.emit (Event.Debugf "Forward Middleware forwards request:\n%s")
  -- forward.go:62
  let s := s.emit (Event.RoundTrip ReqRef.reqClone reqClone)
  match f.roundTripper reqClone with
  | Except.error err =>
    -- forward.go:68-72
    let s := s.emit (Event.Errorf "Error forwarding to %v, err: %v")
    let s := s.emit (Event.errHandler ReqRef.req s.req err)
    s
  | Except.ok response =>
    -- forward.go:74-84
    let s :=
      if s.req.TLS ≠ none then
        s.emit (Event.Infof "Round trip: %v, code: %v, duration: %v tls:version: %x, tls:resume:%t, tls:csuite:%x, tls:server:%v\n")
      else
        s.emit (Event.Infof "Round trip: %v, code: %v, duration: %v\n")
    -- forward.go:86-87
    let s := { s with trace := s.trace ++ (drainBody response.Body).calls }
    let response := DumpResponse response
    let s := s.emit (Event.Debugf "Forward Middleware received response:\n%s")
    -- forward.go:89
    let s := s.emit Event.Header
    let s := { s with header := copyHeaders canon s.header response.Header }
    -- forward.go:90
    let s := s.emit (Event.WriteHeader response.StatusCode s.header)
    -- forward.go:92-94
    match ioCopy w response.Body s with
    | (s, none) => s.emit (Event.Panic "bytes.Buffer.WriteTo: invalid Write count")
    | (s, some _) =>
      let s := s.emit (Event.Debugf "TODO: Byte counting: %v\n")
      s.emit (Event.Close response.Body.kind)

/-- A sample inbound request: `GET /a?x=1 HTTP/1.0` with `Connection: close`, on a
plaintext connection. -/
def sampleReq : Request String :=
  { Method := "GET",
    URL := { Scheme := "", Opaque := "", User := none, Host := "", Path := "/a",
             RawPath := "", RawQuery := "x=1", Fragment := "" },
    Proto := "HTTP/1.0", ProtoMajor := 1, ProtoMinor := 0,
    Header := [("Accept", ["a", "b"])],
    Body := Body.stream [[1], [2, 3]] none none,
    ContentLength := 3, TransferEncoding := [], Close := true,
    Host := "example.com", Trailer := [], RemoteAddr := "10.0.0.1:4000",
    RequestURI := "/a?x=1", TLS := none }

/-- A sample upstream response whose body is read as `[7, 8]`, `[9]`, `io.EOF` and
closes without an error. -/
def sampleResp : Response String :=
  { Status := "200 OK", StatusCode := 200, Proto := "HTTP/1.1", ProtoMajor := 1,
    ProtoMinor := 1, Header := [("Content-Type", ["t"])],
    Body := Body.stream [[7, 8], [9]] none none, ContentLength := 3, Close := false }

/-- A sample upstream response whose body is read as `[7, 8]`, `[9]` and then
fails with the error `reset`. -/
def brokenResp : Response String :=
  { sampleResp with Body := Body.stream [[7, 8], [9]] (some "reset") none }

/-- A sample upstream response whose body is read as `[7, 8]`, `[9]`, `io.EOF` and
whose `Close` returns the error `close failed`. -/
def closeFailResp : Response String :=
  { sampleResp with Body := Body.stream [[7, 8], [9]] none (some "close failed") }

/-- A sample response writer whose `Write` takes every byte and returns no error. -/
def sampleWriter : ResponseWriter String :=
  { Write := fun _ p => ((p.length : Int), none) }

end forward

/-! ## Theorems: filter/filter.go -/

namespace filter

theorem filterCalls_succ {W R E : Type} (w : W) (req : R) (idx n : Nat) :
    (filterCalls w req idx (n + 1) : List (Event W R E)) =
      Event.filter idx w req :: filterCalls w req (idx + 1) n := by
  unfold filterCalls
  rw [List.range_succ_eq_map]
  simp [List.map_map, Function.comp_def, Nat.add_assoc, Nat.add_comm 1]

/-- A run of filters that all proceed is crossed by the loop: each of them is
called once, in order, and the loop is then at the filter that follows them. -/
theorem serveLoop_allProceed {σ W R E : Type} (handler : ErrorHandler σ W R E) (w : W) (req : R)
    (fs rest : List (Filter σ W R E)) :
    ∀ (idx : Nat) (s : σ) (tr : List (Event W R E)), allProceed w req fs s →
      serveLoop handler w req idx (fs ++ rest) (s, tr) =
        serveLoop handler w req (idx + fs.length) rest
          (stateAfter w req fs s, tr ++ filterCalls w req idx fs.length) := by
  induction fs with
  | nil => intro idx s tr _; simp [stateAfter, filterCalls]
  | cons f fs ih =>
    intro idx s tr h
    obtain ⟨hok, herr, hrest⟩ := h
    have step : serveLoop handler w req idx (f :: (fs ++ rest)) (s, tr) =
        serveLoop handler w req (idx + 1) (fs ++ rest)
          ((f w req s).2, tr ++ [Event.filter idx w req]) := by
      simp [serveLoop, herr, hok]
    rw [List.cons_append, step, ih (idx + 1) _ _ hrest, List.length_cons, filterCalls_succ]
    simp [stateAfter, Nat.add_assoc, Nat.add_comm 1]

theorem mem_filterCalls {W R E : Type} (w : W) (req : R) (idx n : Nat) (e : Event W R E) :
    e ∈ filterCalls w req idx n ↔ ∃ k, k < n ∧ e = Event.filter (idx + k) w req := by
  simp [filterCalls, eq_comm]

/-- Claim C2.  When the filters before position `i` all return `(ok = true, err = nil)`
and the filter at position `i` returns `(ok = false, err = nil)`, the calls made by
`filterChain.ServeHTTP` are exactly the calls of the filters `0, ..., i`, once each
and in order, on `(w, req)`: no filter after position `i` is called and the
error handler is not called. -/
theorem ServeHTTP_veto {σ W R E : Type} (handler : ErrorHandler σ W R E) (w : W) (req : R)
    (filters : List (Filter σ W R E)) (s : σ) (i : Nat) (hi : i < filters.length)
    (hbefore : allProceed w req (filters.take i) s)
    (hok : ((filters.get ⟨i, hi⟩) w req (stateAfter w req (filters.take i) s)).1.ok = false)
    (herr : ((filters.get ⟨i, hi⟩) w req (stateAfter w req (filters.take i) s)).1.err = none) :
    (ServeHTTP handler (NewChain filters) w req s).2 = filterCalls w req 0 (i + 1) ∧
    (∀ j w1 req1, i < j → Event.filter j w1 req1 ∉ (ServeHTTP handler (NewChain filters) w req s).2) ∧
    (∀ w1 req1 e d, Event.errHandler w1 req1 e d ∉ (ServeHTTP handler (NewChain filters) w req s).2) := by
  have hsplit : filters = filters.take i ++ filters.get ⟨i, hi⟩ :: filters.drop (i + 1) := by
    rw [List.get_eq_getElem, List.getElem_cons_drop, List.take_append_drop]
  have hlen : (filters.take i).length = i := by
    rw [List.length_take]; omega
  have htrace : (ServeHTTP handler (NewChain filters) w req s).2 = filterCalls w req 0 (i + 1) := by
    unfold ServeHTTP NewChain
    simp only []
    conv => lhs; rw [hsplit]
    rw [serveLoop_allProceed handler w req _ _ 0 s [] hbefore, hlen]
    simp only [serveLoop, herr, hok, if_true]
    simp [filterCalls, List.range_succ]
  refine ⟨htrace, ?_, ?_⟩
  · intro j w1 req1 hj hmem
    rw [htrace, mem_filterCalls] at hmem
    obtain ⟨k, hk, he⟩ := hmem
    injection he with h1
    omega
  · intro w1 req1 e d hmem
    rw [htrace, mem_filterCalls] at hmem
    obtain ⟨k, _, he⟩ := hmem
    cases he

/-- A concrete instance for claim C2: the chain `[pass, veto, pass]`, vetoed at position 1. -/
theorem ServeHTTP_veto_witness :
    (ServeHTTP sampleHandler (NewChain [passFilter "a", vetoFilter "b", passFilter "c"])
        "w" "req" []).2 = [Event.filter 0 "w" "req", Event.filter 1 "w" "req"] ∧
    Event.filter 2 "w" "req" ∉
      (ServeHTTP sampleHandler (NewChain [passFilter "a", vetoFilter "b", passFilter "c"])
        "w" "req" []).2 :=
  have h := ServeHTTP_veto sampleHandler "w" "req"
    [passFilter "a", vetoFilter "b", passFilter "c"] [] 1 (by decide)
    ⟨rfl, rfl, trivial⟩ rfl rfl
  ⟨h.1, h.2.1 2 "w" "req" (by decide)⟩

/-- Claim C3.  When every filter returns `(ok = true, err = nil)`,
`filterChain.ServeHTTP` applies each filter exactly once, in construction order,
each to the same `(w, req)` and to the world the filters before it left: the
world it returns is the one left by running the filters one after the other, the
calls made are exactly one call of each filter, in order, and the error handler
is not called.  For the empty filter sequence nothing is called and the world is
left as it was. -/
theorem ServeHTTP_all_proceed {σ W R E : Type} (handler : ErrorHandler σ W R E) (w : W) (req : R)
    (filters : List (Filter σ W R E)) (s : σ) (hall : allProceed w req filters s) :
    ServeHTTP handler (NewChain filters) w req s =
      (filters.foldl (fun st f => (f w req st).2) s,
       (List.range filters.length).map (fun k => Event.filter k w req)) ∧
    (∀ w1 req1 e d, Event.errHandler w1 req1 e d ∉ (ServeHTTP handler (NewChain filters) w req s).2) ∧
    ServeHTTP handler (NewChain ([] : List (Filter σ W R E))) w req s = (s, []) := by
  have hfold : ∀ (fs : List (Filter σ W R E)) (st : σ),
      stateAfter w req fs st = fs.foldl (fun st f => (f w req st).2) st := by
    intro fs
    induction fs with
    | nil => intro st; rfl
    | cons f fs ih => intro st; simp [stateAfter, ih]
  have hrun : ServeHTTP handler (NewChain filters) w req s =
      (stateAfter w req filters s, filterCalls w req 0 filters.length) := by
    have h := serveLoop_allProceed handler w req filters [] 0 s [] hall
    rw [List.append_nil] at h
    unfold ServeHTTP NewChain
    simp only []
    rw [h]
    simp [serveLoop]
  have hcalls : (filterCalls w req 0 filters.length : List (Event W R E)) =
      (List.range filters.length).map (fun k => Event.filter k w req) := by
    simp [filterCalls]
  refine ⟨by rw [hrun, hfold, hcalls], ?_, rfl⟩
  intro w1 req1 e d hmem
  rw [hrun] at hmem
  simp only [] at hmem
  rw [mem_filterCalls] at hmem
  obtain ⟨k, _, he⟩ := hmem
  cases he

/-- A concrete instance for claim C3: three filters that all proceed, each of which
appends its name to the world. -/
theorem ServeHTTP_all_proceed_witness :
    ServeHTTP sampleHandler (NewChain [passFilter "a", passFilter "b", passFilter "c"])
        "w" "req" [] =
      (["a", "b", "c"],
       [Event.filter 0 "w" "req", Event.filter 1 "w" "req", Event.filter 2 "w" "req"]) :=
  (ServeHTTP_all_proceed sampleHandler "w" "req"
    [passFilter "a", passFilter "b", passFilter "c"] [] ⟨rfl, rfl, rfl, rfl, rfl, rfl, trivial⟩).1

/-- Claim C1, at a failing input.  In the chain `[fail, pass]` the first filter
returns `(false, "boom", "desc")`.  `filterChain.ServeHTTP` calls the error
handler with that error and description and then goes on to call the second
filter.  In the chain `[fail, fail]` the error handler is called twice. -/
theorem ServeHTTP_error_continues :
    ServeHTTP sampleHandler (NewChain [failFilter "a" "boom" "desc", passFilter "b"])
        "w" "req" [] =
      (["a", "handler(boom,desc)", "b"],
       [Event.filter 0 "w" "req", Event.errHandler "w" "req" "boom" "desc",
        Event.filter 1 "w" "req"]) ∧
    (ServeHTTP sampleHandler
        (NewChain [failFilter "a" "boom" "desc", failFilter "b" "bang" "desc2"])
        "w" "req" []).2 =
      [Event.filter 0 "w" "req", Event.errHandler "w" "req" "boom" "desc",
       Event.filter 1 "w" "req", Event.errHandler "w" "req" "bang" "desc2"] := by
  constructor <;> rfl

end filter

/-! ## Theorems: forward/forward.go -/

namespace forward

theorem Header.lookup_set (h : Header) (k K : String) (vv : List String) :
    Header.lookup (Header.set h k vv) K = if k = K then some vv else Header.lookup h K := by
  induction h with
  | nil => simp [Header.set, Header.lookup]
  | cons e rest ih =>
    obtain ⟨k1, vv1⟩ := e
    by_cases h1 : k1 = k
    · subst h1
      by_cases h2 : k1 = K <;> simp [Header.set, Header.lookup, h2]
    · by_cases h2 : k1 = K
      · subst h2
        simp [Header.set, Header.lookup, h1, Ne.symm h1]
      · simp [Header.set, Header.lookup, h1, h2, ih]

theorem Header.lookup_Add (canon : String → String) (h : Header) (k v K : String) :
    Header.lookup (Header.Add canon h k v) K =
      if canon k = K then some (Header.values h K ++ [v]) else Header.lookup h K := by
  unfold Header.Add
  simp only [Header.lookup_set]
  by_cases hk : canon k = K
  · subst hk; simp
  · simp [hk]

/-- The inner loop of `copyHeaders`: adding the values `vv` under the key `k`. -/
theorem Header.lookup_foldl_Add (canon : String → String) (k K : String) (vv : List String) :
    ∀ d : Header,
      Header.lookup (vv.foldl (fun d v => Header.Add canon d k v) d) K =
        if canon k = K ∧ vv ≠ [] then some (Header.values d K ++ vv) else Header.lookup d K := by
  induction vv with
  | nil => intro d; simp
  | cons v vs ih =>
    intro d
    rw [List.foldl_cons, ih]
    by_cases hk : canon k = K
    · by_cases hvs : vs = []
      · simp [hk, hvs, Header.lookup_Add]
      · simp [hk, hvs, Header.values, Header.lookup_Add]
    · simp [hk, Header.lookup_Add]

theorem Header.values_foldl_Add (canon : String → String) (k K : String) (vv : List String)
    (d : Header) :
    Header.values (vv.foldl (fun d v => Header.Add canon d k v) d) K =
      if canon k = K then Header.values d K ++ vv else Header.values d K := by
  unfold Header.values
  rw [Header.lookup_foldl_Add]
  by_cases hk : canon k = K
  · by_cases hvv : vv = []
    · simp [hk, hvv, Header.values]
    · simp [hk, hvv, Header.values]
  · simp [hk]

theorem Header.lookup_eq_none_of_not_mem (h : Header) (K : String) (hK : K ∉ Header.keys h) :
    Header.lookup h K = none := by
  induction h with
  | nil => rfl
  | cons e rest ih =>
    obtain ⟨k1, vv1⟩ := e
    simp only [Header.keys, List.map_cons, List.mem_cons, not_or] at hK
    have h1 : ¬ k1 = K := fun h => hK.1 h.symm
    simp only [Header.lookup, h1, if_false]
    exact ih hK.2

/-- Claim C4.  `copyHeaders` only adds.  For a source map whose keys are in canonical
form, after `copyHeaders(dst, src)` the values under every key `K` are the values
`dst` had under `K` followed by the values `src` has under `K`, in order; under
a key that `src` does not have, the entry of `dst` is as it was. -/
theorem copyHeaders_additive (canon : String → String) (dst src : Header)
    (hcanon : ∀ k ∈ Header.keys src, canon k = k) (hnodup : (Header.keys src).Nodup)
    (K : String) :
    Header.values (copyHeaders canon dst src) K = Header.values dst K ++ Header.values src K ∧
    (K ∉ Header.keys src →
      Header.lookup (copyHeaders canon dst src) K = Header.lookup dst K) := by
  induction src generalizing dst with
  | nil => simp [copyHeaders, Header.values, Header.lookup]
  | cons e rest ih =>
    obtain ⟨k, vv⟩ := e
    have hk : canon k = k := hcanon k (by simp [Header.keys])
    have hcanon1 : ∀ k1 ∈ Header.keys rest, canon k1 = k1 := fun k1 hk1 =>
      hcanon k1 (by simp only [Header.keys, List.map_cons, List.mem_cons]; exact Or.inr hk1)
    simp only [Header.keys, List.map_cons, List.nodup_cons] at hnodup
    have ih1 := ih (vv.foldl (fun d v => Header.Add canon d k v) dst) hcanon1 hnodup.2
    have hstep : copyHeaders canon dst ((k, vv) :: rest) =
        copyHeaders canon (vv.foldl (fun d v => Header.Add canon d k v) dst) rest := by
      simp [copyHeaders]
    rw [hstep]
    constructor
    · rw [ih1.1, Header.values_foldl_Add, hk]
      by_cases hkK : k = K
      · subst hkK
        have hnone : Header.lookup rest k = none :=
          Header.lookup_eq_none_of_not_mem rest k hnodup.1
        simp [Header.values, Header.lookup, hnone]
      · simp [hkK, Header.values, Header.lookup]
    · intro hK
      simp only [Header.keys, List.map_cons, List.mem_cons, not_or] at hK
      rw [ih1.2 hK.2, Header.lookup_foldl_Add, hk]
      have hkK : ¬ k = K := fun h => hK.1 h.symm
      simp [hkK]

/-- A concrete instance for claim C4: `K -> [v0]` and `K -> [v1, v2]` give
`K -> [v0, v1, v2]`, and the key `Other` of the destination is as it was. -/
theorem copyHeaders_additive_witness :
    Header.values (copyHeaders canonicalMIMEHeaderKey
        [("K", ["v0"]), ("Other", ["x"])] [("K", ["v1", "v2"])]) "K" = ["v0", "v1", "v2"] :=
  (copyHeaders_additive canonicalMIMEHeaderKey [("K", ["v0"]), ("Other", ["x"])]
    [("K", ["v1", "v2"])] (by decide) (by decide) "K").1

/-- Claim C5.  The request returned by `cloneRequest` has `URL.Opaque` equal to
`req.RequestURI` and an empty `URL.RawQuery`, whatever the URL of `req` holds. -/
theorem cloneRequest_target {E : Type} (canon : String → String) (req : Request E) (u : URL) :
    (cloneRequest canon req u).URL.Opaque = req.RequestURI ∧
    (cloneRequest canon req u).URL.RawQuery = "" := by
  simp [cloneRequest]

/-- Claim C6.  The request returned by `cloneRequest` has the scheme `https` when
`req.TLS` is present and `http` when it is absent, whatever scheme `req.URL` has. -/
theorem cloneRequest_scheme {E : Type} (canon : String → String) (req : Request E) (u : URL)
    (cs : ConnectionState) :
    (cloneRequest canon { req with TLS := some cs } u).URL.Scheme = "https" ∧
    (cloneRequest canon { req with TLS := none } u).URL.Scheme = "http" := by
  simp [cloneRequest]

/-- Claim C7.  The request returned by `cloneRequest` has `Proto = "HTTP/1.1"`,
`ProtoMajor = 1`, `ProtoMinor = 1` and `Close = false`, whatever `req` has there,
and the `Method` and the `Body` of `req`. -/
theorem cloneRequest_proto {E : Type} (canon : String → String) (req : Request E) (u : URL) :
    (cloneRequest canon req u).Proto = "HTTP/1.1" ∧
    (cloneRequest canon req u).ProtoMajor = 1 ∧
    (cloneRequest canon req u).ProtoMinor = 1 ∧
    (cloneRequest canon req u).Close = false ∧
    (cloneRequest canon req u).Method = req.Method ∧
    (cloneRequest canon req u).Body = req.Body := by
  simp [cloneRequest]

theorem written_append {E : Type} (a b : List (Event E)) :
    written (a ++ b) = written a ++ written b := by
  induction a with
  | nil => rfl
  | cons e rest ih => cases e <;> simp [written, ih]

theorem written_map_Write {E : Type} (ws : List (List Byte)) :
    written (ws.map (Event.Write : List Byte → Event E)) = ws.flatten := by
  induction ws with
  | nil => rfl
  | cons c rest ih => simp [written, ih]

/-- The calls `drainBody` makes are `Close` calls. -/
theorem drainBody_calls {E : Type} (b : Body E) :
    ∀ e ∈ (drainBody b).calls, ∃ k, e = Event.Close k := by
  intro e he
  cases b with
  | noBody => simp [drainBody] at he
  | buffer data => exact ⟨BodyKind.buffer, by simpa [drainBody] using he⟩
  | stream chunks err ce =>
    cases err with
    | some e1 => simp [drainBody] at he
    | none =>
      cases ce with
      | some c1 => exact ⟨BodyKind.stream, by simpa [drainBody] using he⟩
      | none => exact ⟨BodyKind.stream, by simpa [drainBody] using he⟩

theorem drainBody_calls_isSinkCall {E : Type} (b : Body E) :
    ∀ e ∈ (drainBody b).calls, e.isSinkCall = false := by
  intro e he
  obtain ⟨k, hk⟩ := drainBody_calls b e he
  rw [hk]; rfl

theorem drainBody_calls_isRoundTrip {E : Type} (b : Body E) :
    ∀ e ∈ (drainBody b).calls, e.isRoundTrip = false := by
  intro e he
  obtain ⟨k, hk⟩ := drainBody_calls b e he
  rw [hk]; rfl

theorem drainBody_calls_isErrHandler {E : Type} (b : Body E) :
    ∀ e ∈ (drainBody b).calls, e.isErrHandler = false := by
  intro e he
  obtain ⟨k, hk⟩ := drainBody_calls b e he
  rw [hk]; rfl

theorem written_drainBody_calls {E : Type} (b : Body E) :
    written (drainBody b).calls = [] := by
  cases b with
  | noBody => rfl
  | buffer data => rfl
  | stream chunks err ce =>
    cases err with
    | some e1 => rfl
    | none => cases ce <;> rfl

/-- One turn of the copy loop on a non-empty read: `w.Write` is called with it, and
the loop either ends there or goes on with the reads that are left. -/
theorem copyLoop_cons_pos {E : Type} (w : ResponseWriter E) (c : List Byte)
    (rest : List (List Byte)) (s : World E) (n : Int) (hc : 0 < c.length) :
    (copyLoop w (c :: rest) s n).1 = { s with trace := s.trace ++ [Event.Write c] } ∨
    ∃ n1, (copyLoop w (c :: rest) s n).1 =
      (copyLoop w rest { s with trace := s.trace ++ [Event.Write c] } n1).1 := by
  simp only [copyLoop, hc, if_true]
  split_ifs <;> first | exact Or.inl rfl | exact Or.inr ⟨_, rfl⟩

/-- Whatever `w.Write` returns, the copy loop leaves the header map and the request
alone and adds only `Write` calls to the trace. -/
theorem copyLoop_only_writes {E : Type} (w : ResponseWriter E) (cs : List (List Byte)) :
    ∀ (s : World E) (n : Int), ∃ ws : List (List Byte),
      (copyLoop w cs s n).1 = { s with trace := s.trace ++ ws.map Event.Write } := by
  induction cs with
  | nil => intro s n; exact ⟨[], by simp [copyLoop]⟩
  | cons c rest ih =>
    intro s n
    by_cases hc : 0 < c.length
    · rcases copyLoop_cons_pos w c rest s n hc with h | ⟨n1, h⟩
      · exact ⟨[c], by rw [h]; simp⟩
      · obtain ⟨ws, hws⟩ := ih { s with trace := s.trace ++ [Event.Write c] } n1
        exact ⟨c :: ws, by rw [h, hws]; simp⟩
    · have hstep : copyLoop w (c :: rest) s n = copyLoop w rest s n := by
        simp [copyLoop, hc]
      rw [hstep]
      exact ih s n

/-- Whatever `w.Write` returns, `io.Copy` leaves the header map and the request
alone and adds only `Write` calls to the trace. -/
theorem ioCopy_only_writes {E : Type} (w : ResponseWriter E) (src : Body E) (s : World E) :
    ∃ (ws : List (List Byte)) (r : Option Int),
      ioCopy w src s = ({ s with trace := s.trace ++ ws.map Event.Write }, r) := by
  cases src with
  | noBody => exact ⟨[], some 0, by simp [ioCopy]⟩
  | buffer data =>
    by_cases hd : 0 < data.length
    · by_cases hm : (data.length : Int) < (w.Write s.trace data).1
      · exact ⟨[data], none, by simp [ioCopy, hd, hm]⟩
      · exact ⟨[data], some (w.Write s.trace data).1, by simp [ioCopy, hd, hm]⟩
    · exact ⟨[], some 0, by simp [ioCopy, hd]⟩
  | stream chunks err ce =>
    obtain ⟨ws, hws⟩ := copyLoop_only_writes w chunks s 0
    exact ⟨ws, some (copyLoop w chunks s 0).2, by simp [ioCopy, ← hws]⟩

/-- When the reader `b` reads to `io.EOF` and closes without an error, and no `w.Write`
fails, `io.Copy` from the reader that `drainBody` leaves in the field hands the
bytes of `b` to `w.Write` and does not panic. -/
theorem ioCopy_drained {E : Type} (w : ResponseWriter E)
    (hwrite : ∀ tr p, w.Write tr p = ((p.length : Int), none)) (b : Body E)
    (hread : b.readErr = none) (hclose : b.closeErr = none) (s : World E) :
    ∃ (ws : List (List Byte)) (n : Int),
      ioCopy w (drainBody b).field s =
        ({ s with trace := s.trace ++ ws.map Event.Write }, some n) ∧
      ws.flatten = b.bytes := by
  have hbuf : ∀ data : List Byte, ∃ (ws : List (List Byte)) (n : Int),
      ioCopy w (Body.buffer data) s =
        ({ s with trace := s.trace ++ ws.map Event.Write }, some n) ∧
      ws.flatten = data := by
    intro data
    by_cases hd : 0 < data.length
    · exact ⟨[data], (data.length : Int), by simp [ioCopy, hd, hwrite], by simp⟩
    · have hnil : data = [] := by
        cases data with
        | nil => rfl
        | cons a t => simp at hd
      exact ⟨[], 0, by simp [ioCopy, hnil], by simp [hnil]⟩
  cases b with
  | noBody => exact ⟨[], 0, by simp [ioCopy, drainBody], by simp [Body.bytes]⟩
  | buffer data => simpa [drainBody, Body.bytes] using hbuf data
  | stream chunks err ce =>
    simp only [Body.readErr] at hread
    simp only [Body.closeErr] at hclose
    subst hread
    subst hclose
    simpa [drainBody, Body.bytes] using hbuf chunks.flatten

/-- The calls `drainBody` makes on a reader that reads to `io.EOF` and closes
without an error, and the kind of the reader it leaves in the field. -/
theorem drainBody_of_ok {E : Type} (b : Body E)
    (hread : b.readErr = none) (hclose : b.closeErr = none) :
    (drainBody b).calls =
      (if b.kind = BodyKind.noBody then [] else [Event.Close b.kind]) ∧
    (drainBody b).field.kind =
      (if b.kind = BodyKind.noBody then BodyKind.noBody else BodyKind.buffer) := by
  cases b with
  | noBody => simp [drainBody, Body.kind]
  | buffer data => simp [drainBody, Body.kind]
  | stream chunks err ce =>
    simp only [Body.readErr] at hread
    simp only [Body.closeErr] at hclose
    subst hread
    subst hclose
    simp [drainBody, Body.kind]

/-- The world `Forwarder.ServeHTTP` returns when `RoundTrip` returns an error. -/
theorem ServeHTTP_of_error {E : Type} (canon : String → String) (f : Forwarder E)
    (w : ResponseWriter E) (hdr : Header) (req : Request E) (err : E)
    (hrt : f.roundTripper
      (DumpRequest (cloneRequest canon (DumpRequest req) (DumpRequest req).URL)) =
        Except.error err) :
    ServeHTTP canon f w ⟨hdr, req, []⟩ =
      { header := hdr,
        req := { DumpRequest req with
          Body := (drainBody
            (cloneRequest canon (DumpRequest req) (DumpRequest req).URL).Body).rest },
        trace := (drainBody req.Body).calls ++
          [Event.Debugf "Forward Middleware received request:\n%s"] ++
          (drainBody (cloneRequest canon (DumpRequest req) (DumpRequest req).URL).Body).calls ++
          [Event.Debugf "Forward Middleware forwards request:\n%s",
           Event.RoundTrip ReqRef.reqClone
            (DumpRequest (cloneRequest canon (DumpRequest req) (DumpRequest req).URL)),
           Event.Errorf "Error forwarding to %v, err: %v",
           Event.errHandler ReqRef.req { DumpRequest req with
            Body := (drainBody
              (cloneRequest canon (DumpRequest req) (DumpRequest req).URL).Body).rest } err] } := by
  simp [ServeHTTP, World.emit, hrt]

/-- Claim C8.  When `RoundTrip` returns an error `err`, `Forwarder.ServeHTTP` leaves the
header map of the response writer as it was and calls none of `Header`,
`WriteHeader` and `Write`; it calls the error handler exactly once, with the request object `req`
(the inbound request, all of whose fields but the drained `Body` are as received)
and `err`, and that call is the last thing it does. -/
theorem ServeHTTP_roundTrip_error {E : Type} (canon : String → String) (f : Forwarder E)
    (w : ResponseWriter E) (hdr : Header) (req : Request E) (err : E)
    (hrt : f.roundTripper
      (DumpRequest (cloneRequest canon (DumpRequest req) (DumpRequest req).URL)) =
        Except.error err) :
    (ServeHTTP canon f w ⟨hdr, req, []⟩).header = hdr ∧
    (∀ e ∈ (ServeHTTP canon f w ⟨hdr, req, []⟩).trace, e.isSinkCall = false) ∧
    (ServeHTTP canon f w ⟨hdr, req, []⟩).trace.filter Event.isErrHandler =
      [Event.errHandler ReqRef.req (ServeHTTP canon f w ⟨hdr, req, []⟩).req err] ∧
    (ServeHTTP canon f w ⟨hdr, req, []⟩).trace.getLast? =
      some (Event.errHandler ReqRef.req (ServeHTTP canon f w ⟨hdr, req, []⟩).req err) ∧
    (ServeHTTP canon f w ⟨hdr, req, []⟩).req =
      { req with Body := (ServeHTTP canon f w ⟨hdr, req, []⟩).req.Body } := by
  rw [ServeHTTP_of_error canon f w hdr req err hrt]
  refine ⟨rfl, ?_, ?_, ?_, ?_⟩
  · intro e he
    simp only [List.mem_append, List.mem_cons, List.mem_singleton, List.not_mem_nil,
      or_false] at he
    rcases he with ((h | h) | h) | h | h | h | h
    · exact drainBody_calls_isSinkCall _ e h
    · rw [h]; rfl
    · exact drainBody_calls_isSinkCall _ e h
    · rw [h]; rfl
    · rw [h]; rfl
    · rw [h]; rfl
    · rw [h]; rfl
  · have h1 := List.filter_eq_nil_iff.mpr (fun e he => by
      simp [drainBody_calls_isErrHandler req.Body e he] :
        ∀ e ∈ (drainBody req.Body).calls, ¬ Event.isErrHandler e = true)
    have h2 := List.filter_eq_nil_iff.mpr (fun e he => by
      simp [drainBody_calls_isErrHandler _ e he] :
        ∀ e ∈ (drainBody
          (cloneRequest canon (DumpRequest req) (DumpRequest req).URL).Body).calls,
          ¬ Event.isErrHandler e = true)
    simp [List.filter_append, h1, h2, List.filter, Event.isErrHandler]
  · simp only [List.getLast?_append, List.getLast?_cons_cons, List.getLast?_singleton]
    rfl
  · simp [DumpRequest]

/-- A concrete instance for claim C8: a transport that fails with `boom`. -/
theorem ServeHTTP_roundTrip_error_witness :
    (ServeHTTP canonicalMIMEHeaderKey ⟨fun _ => Except.error "boom"⟩ sampleWriter
        ⟨[("Server", ["p"])], sampleReq, []⟩).header = [("Server", ["p"])] ∧
    (ServeHTTP canonicalMIMEHeaderKey ⟨fun _ => Except.error "boom"⟩ sampleWriter
        ⟨[("Server", ["p"])], sampleReq, []⟩).trace.filter Event.isErrHandler =
      [Event.errHandler ReqRef.req { sampleReq with Body := Body.buffer [] } "boom"] :=
  have h := ServeHTTP_roundTrip_error canonicalMIMEHeaderKey ⟨fun _ => Except.error "boom"⟩
    sampleWriter [("Server", ["p"])] sampleReq "boom" rfl
  ⟨h.1, h.2.2.1⟩

/-- The world `Forwarder.ServeHTTP` returns when `RoundTrip` returns a response: the
calls up to `WriteHeader`, then what `io.Copy` does, then either the panic or
the last log call and the `Close` of `response.Body`. -/
theorem ServeHTTP_of_response {E : Type} (canon : String → String) (f : Forwarder E)
    (w : ResponseWriter E) (hdr : Header) (req : Request E) (resp : Response E)
    (hrt : f.roundTripper
      (DumpRequest (cloneRequest canon (DumpRequest req) (DumpRequest req).URL)) =
        Except.ok resp) :
    ∃ info : String,
      ServeHTTP canon f w ⟨hdr, req, []⟩ =
        match ioCopy w (drainBody resp.Body).field
          { header := copyHeaders canon hdr resp.Header,
            req := { DumpRequest req with
              Body := (drainBody
                (cloneRequest canon (DumpRequest req) (DumpRequest req).URL).Body).rest },
            trace := (drainBody req.Body).calls ++
              [Event.Debugf "Forward Middleware received request:\n%s"] ++
              (drainBody
                (cloneRequest canon (DumpRequest req) (DumpRequest req).URL).Body).calls ++
              [Event.Debugf "Forward Middleware forwards request:\n%s",
               Event.RoundTrip ReqRef.reqClone
                (DumpRequest (cloneRequest canon (DumpRequest req) (DumpRequest req).URL)),
               Event.Infof info] ++
              (drainBody resp.Body).calls ++
              [Event.Debugf "Forward Middleware received response:\n%s",
               Event.Header,
               Event.WriteHeader resp.StatusCode (copyHeaders canon hdr resp.Header)] } with
        | (s, none) => s.emit (Event.Panic "bytes.Buffer.WriteTo: invalid Write count")
        | (s, some _) =>
          (s.emit (Event.Debugf "TODO: Byte counting: %v\n")).emit
            (Event.Close (drainBody resp.Body).field.kind) := by
  by_cases htls : (DumpRequest req).TLS = none
  · refine ⟨"Round trip: %v, code: %v, duration: %v\n", ?_⟩
    simp [ServeHTTP, World.emit, hrt, htls, DumpResponse]
  · refine ⟨"Round trip: %v, code: %v, duration: %v tls:version: %x, tls:resume:%t, tls:csuite:%x, tls:server:%v\n", ?_⟩
    simp [ServeHTTP, World.emit, hrt, htls, DumpResponse]

/-- Claim C9, amended.  When `RoundTrip` returns a response `resp` whose body reads to
`io.EOF` without a read error and whose `Close` returns no error, and no
`w.Write` fails, the calls of `Forwarder.ServeHTTP` are, in order:

* calls `pre0`, none of them on the response writer;
* the `Close` of the body reader that `RoundTrip` returned, made by the debug dump
  of line 86 once it has read that reader to its end (no call for `http.NoBody`);
* calls `pre1`, none of them on the response writer;
* `Header()` and `WriteHeader(resp.StatusCode)`, the latter made with the header
  map already holding the headers of `resp` added to those it had;
* `Write` calls whose bytes, put end to end, are the body of `resp`;
* one log call;
* the `Close` of `response.Body`, which is by then the in-memory copy that the
  dump stored there (`http.NoBody` itself for `http.NoBody`).

The error handler is not called. -/
theorem ServeHTTP_relays {E : Type} (canon : String → String) (f : Forwarder E)
    (w : ResponseWriter E) (hdr : Header) (req : Request E) (resp : Response E)
    (hrt : f.roundTripper
      (DumpRequest (cloneRequest canon (DumpRequest req) (DumpRequest req).URL)) =
        Except.ok resp)
    (hread : resp.Body.readErr = none)
    (hclose : resp.Body.closeErr = none)
    (hwrite : ∀ tr p, w.Write tr p = ((p.length : Int), none)) :
    (∃ (pre0 pre1 : List (Event E)) (ws : List (List Byte)) (fmt : String),
      (ServeHTTP canon f w ⟨hdr, req, []⟩).trace =
        pre0 ++
          (if resp.Body.kind = BodyKind.noBody then [] else [Event.Close resp.Body.kind]) ++
          pre1 ++
          [Event.Header,
            Event.WriteHeader resp.StatusCode (copyHeaders canon hdr resp.Header)] ++
          ws.map Event.Write ++
          [Event.Debugf fmt,
            Event.Close (if resp.Body.kind = BodyKind.noBody then BodyKind.noBody
              else BodyKind.buffer)] ∧
      (∀ e ∈ pre0 ++ pre1, e.isSinkCall = false) ∧
      ws.flatten = resp.Body.bytes) ∧
    written (ServeHTTP canon f w ⟨hdr, req, []⟩).trace = resp.Body.bytes ∧
    (ServeHTTP canon f w ⟨hdr, req, []⟩).header = copyHeaders canon hdr resp.Header ∧
    (∀ e ∈ (ServeHTTP canon f w ⟨hdr, req, []⟩).trace, e.isErrHandler = false) := by
  obtain ⟨info, hout⟩ := ServeHTTP_of_response canon f w hdr req resp hrt
  obtain ⟨hcalls, hkind⟩ := drainBody_of_ok resp.Body hread hclose
  obtain ⟨ws, n, hio, hflat⟩ := ioCopy_drained w hwrite resp.Body hread hclose
    { header := copyHeaders canon hdr resp.Header,
      req := { DumpRequest req with
        Body := (drainBody
          (cloneRequest canon (DumpRequest req) (DumpRequest req).URL).Body).rest },
      trace := (drainBody req.Body).calls ++
        [Event.Debugf "Forward Middleware received request:\n%s"] ++
        (drainBody
          (cloneRequest canon (DumpRequest req) (DumpRequest req).URL).Body).calls ++
        [Event.Debugf "Forward Middleware forwards request:\n%s",
         Event.RoundTrip ReqRef.reqClone
          (DumpRequest (cloneRequest canon (DumpRequest req) (DumpRequest req).URL)),
         Event.Infof info] ++
        (drainBody resp.Body).calls ++
        [Event.Debugf "Forward Middleware received response:\n%s",
         Event.Header,
         Event.WriteHeader resp.StatusCode (copyHeaders canon hdr resp.Header)] }
  rw [hout, hio]
  simp only [World.emit]
  rw [hkind, hcalls]
  refine ⟨⟨(drainBody req.Body).calls ++
        [Event.Debugf "Forward Middleware received request:\n%s"] ++
        (drainBody
          (cloneRequest canon (DumpRequest req) (DumpRequest req).URL).Body).calls ++
        [Event.Debugf "Forward Middleware forwards request:\n%s",
         Event.RoundTrip ReqRef.reqClone
          (DumpRequest (cloneRequest canon (DumpRequest req) (DumpRequest req).URL)),
         Event.Infof info],
      [Event.Debugf "Forward Middleware received response:\n%s"], ws,
      "TODO: Byte counting: %v\n", ?_, ?_, hflat⟩, ?_, trivial, ?_⟩
  · simp only [List.append_assoc, List.cons_append, List.nil_append]
  · intro e he
    simp only [List.mem_append, List.mem_cons, List.mem_singleton, List.not_mem_nil,
      or_false] at he
    rcases he with (((h | h) | h) | h | h | h) | h
    · exact drainBody_calls_isSinkCall _ e h
    · rw [h]; rfl
    · exact drainBody_calls_isSinkCall _ e h
    · rw [h]; rfl
    · rw [h]; rfl
    · rw [h]; rfl
    · rw [h]; rfl
  · simp only [written_append, written_map_Write, written_drainBody_calls, hflat]
    by_cases hk : resp.Body.kind = BodyKind.noBody <;> simp [hk, written]
  · intro e he
    simp only [List.mem_append, List.mem_cons, List.mem_singleton, List.mem_map,
      List.not_mem_nil, or_false] at he
    rcases he with (((((((h | h) | h) | h | h | h) | h) | h | h | h) | ⟨c, _, h⟩) | h) | h
    · exact drainBody_calls_isErrHandler _ e h
    · rw [h]; rfl
    · exact drainBody_calls_isErrHandler _ e h
    · rw [h]; rfl
    · rw [h]; rfl
    · rw [h]; rfl
    · by_cases hk : resp.Body.kind = BodyKind.noBody
      · simp [hk] at h
      · simp only [hk, if_false, List.mem_singleton] at h
        rw [h]; rfl
    · rw [h]; rfl
    · rw [h]; rfl
    · rw [h]; rfl
    · rw [← h]; rfl
    · rw [h]; rfl
    · rw [h]; rfl

/-- A concrete instance for the amended claim C9: the transport returns `sampleResp`,
whose body is read as `[7, 8]`, `[9]`, `io.EOF`.  The calls on the response writer
and the `Close` calls are, in order: the two `Close` calls of the dumps of the
request, the `Close` of the response stream by the dump of the response, then
`Header`, `WriteHeader`, one `Write` and the `Close` of the in-memory copy. -/
theorem ServeHTTP_relays_witness :
    written (ServeHTTP canonicalMIMEHeaderKey ⟨fun _ => Except.ok sampleResp⟩ sampleWriter
        ⟨[("Content-Type", ["z"])], sampleReq, []⟩).trace = [7, 8, 9] ∧
    (ServeHTTP canonicalMIMEHeaderKey ⟨fun _ => Except.ok sampleResp⟩ sampleWriter
        ⟨[("Content-Type", ["z"])], sampleReq, []⟩).header = [("Content-Type", ["z", "t"])] ∧
    (ServeHTTP canonicalMIMEHeaderKey ⟨fun _ => Except.ok sampleResp⟩ sampleWriter
        ⟨[("Content-Type", ["z"])], sampleReq, []⟩).trace.filter
          (fun e => e.isSinkCall || e.isClose) =
      [Event.Close BodyKind.stream, Event.Close BodyKind.buffer,
       Event.Close BodyKind.stream, Event.Header,
       Event.WriteHeader 200 [("Content-Type", ["z", "t"])], Event.Write [7, 8, 9],
       Event.Close BodyKind.buffer] :=
  have h := ServeHTTP_relays canonicalMIMEHeaderKey ⟨fun _ => Except.ok sampleResp⟩
    sampleWriter [("Content-Type", ["z"])] sampleReq sampleResp rfl rfl rfl (fun _ _ => rfl)
  ⟨h.2.1, h.2.2.1, rfl⟩

/-- Claim C9 as stated fails.  The transport returns `brokenResp`, whose body is read
as `[7, 8]`, `[9]` and then a read error, and no `w.Write` fails.  `DumpResponse`
has read the body up to the error before `io.Copy` starts, so
`Forwarder.ServeHTTP` calls `Header`, `WriteHeader(200)` and `Close` and hands no
byte of the body to `w.Write`.  The same happens with `closeFailResp`, whose
body reads to `io.EOF` and whose `Close` fails inside `DumpResponse`. -/
theorem ServeHTTP_relays_counterexample :
    ((⟨fun _ => Except.ok brokenResp⟩ : Forwarder String).roundTripper
        (DumpRequest (cloneRequest canonicalMIMEHeaderKey (DumpRequest sampleReq)
          (DumpRequest sampleReq).URL)) = Except.ok brokenResp ∧
      (∀ tr p, sampleWriter.Write tr p = ((p.length : Int), none)) ∧
      brokenResp.Body.bytes = [7, 8, 9] ∧
      (ServeHTTP canonicalMIMEHeaderKey ⟨fun _ => Except.ok brokenResp⟩ sampleWriter
          ⟨[], sampleReq, []⟩).trace.filter Event.isSinkCall =
        [Event.Header, Event.WriteHeader 200 [("Content-Type", ["t"])]] ∧
      written (ServeHTTP canonicalMIMEHeaderKey ⟨fun _ => Except.ok brokenResp⟩ sampleWriter
          ⟨[], sampleReq, []⟩).trace = [] ∧
      written (ServeHTTP canonicalMIMEHeaderKey ⟨fun _ => Except.ok brokenResp⟩ sampleWriter
          ⟨[], sampleReq, []⟩).trace ≠ brokenResp.Body.bytes) ∧
    ((⟨fun _ => Except.ok closeFailResp⟩ : Forwarder String).roundTripper
        (DumpRequest (cloneRequest canonicalMIMEHeaderKey (DumpRequest sampleReq)
          (DumpRequest sampleReq).URL)) = Except.ok closeFailResp ∧
      closeFailResp.Body.readErr = none ∧
      closeFailResp.Body.bytes = [7, 8, 9] ∧
      written (ServeHTTP canonicalMIMEHeaderKey ⟨fun _ => Except.ok closeFailResp⟩
          sampleWriter ⟨[], sampleReq, []⟩).trace = [] ∧
      written (ServeHTTP canonicalMIMEHeaderKey ⟨fun _ => Except.ok closeFailResp⟩
          sampleWriter ⟨[], sampleReq, []⟩).trace ≠ closeFailResp.Body.bytes) := by
  refine ⟨⟨rfl, fun _ _ => rfl, rfl, rfl, rfl, ?_⟩, rfl, rfl, rfl, rfl, ?_⟩ <;> decide

/-- Claim C10.  Whether `RoundTrip` returns a response or an error, the calls of
`Forwarder.ServeHTTP` hold exactly one call of `RoundTrip`, and no call before it
is a call on the response writer.

Its argument `arg` is the request object `reqClone` that `cloneRequest` built
(with its body buffered again by the debug dump of line 59), not the object
`req`: it has the protocol, the `Close` flag, the URL and the fresh header map
that `cloneRequest` gives it, while the object `req` keeps every field it was
received with but the drained `Body`.

What follows the call is decided by what the transport returns on `arg`: on an
error, one log call and the error handler with that error; on a response, no
error handler and the `WriteHeader` of the status of that response. -/
theorem ServeHTTP_one_roundTrip {E : Type} (canon : String → String) (f : Forwarder E)
    (w : ResponseWriter E) (hdr : Header) (req : Request E) :
    ∃ (arg : Request E) (pre post : List (Event E)),
      arg = DumpRequest (cloneRequest canon (DumpRequest req) (DumpRequest req).URL) ∧
      (ServeHTTP canon f w ⟨hdr, req, []⟩).trace =
        pre ++ Event.RoundTrip ReqRef.reqClone arg :: post ∧
      (∀ e ∈ pre, e.isRoundTrip = false ∧ e.isSinkCall = false) ∧
      (∀ e ∈ post, e.isRoundTrip = false) ∧
      (∀ err, f.roundTripper arg = Except.error err →
        post = [Event.Errorf "Error forwarding to %v, err: %v",
          Event.errHandler ReqRef.req (ServeHTTP canon f w ⟨hdr, req, []⟩).req err]) ∧
      (∀ resp, f.roundTripper arg = Except.ok resp →
        Event.WriteHeader resp.StatusCode (copyHeaders canon hdr resp.Header) ∈ post ∧
        ∀ e ∈ post, e.isErrHandler = false) ∧
      (arg.Proto = "HTTP/1.1" ∧ arg.ProtoMajor = 1 ∧ arg.ProtoMinor = 1 ∧
        arg.Close = false ∧ arg.Method = req.Method ∧
        arg.Header = copyHeaders canon [] req.Header ∧
        arg.URL.Scheme = (if req.TLS = none then "http" else "https") ∧
        arg.URL.Host = req.Host ∧ arg.URL.Opaque = req.RequestURI ∧
        arg.URL.RawQuery = "") ∧
      (ServeHTTP canon f w ⟨hdr, req, []⟩).req =
        { req with Body := (ServeHTTP canon f w ⟨hdr, req, []⟩).req.Body } := by
  have hpre : ∀ e ∈ (drainBody req.Body).calls ++
      [Event.Debugf "Forward Middleware received request:\n%s"] ++
      (drainBody (cloneRequest canon (DumpRequest req) (DumpRequest req).URL).Body).calls ++
      [Event.Debugf "Forward Middleware forwards request:\n%s"],
      e.isRoundTrip = false ∧ e.isSinkCall = false := by
    intro e he
    simp only [List.mem_append, List.mem_cons, List.mem_singleton, List.not_mem_nil,
      or_false] at he
    rcases he with ((h | h) | h) | h
    · exact ⟨drainBody_calls_isRoundTrip _ e h, drainBody_calls_isSinkCall _ e h⟩
    · rw [h]; exact ⟨rfl, rfl⟩
    · exact ⟨drainBody_calls_isRoundTrip _ e h, drainBody_calls_isSinkCall _ e h⟩
    · rw [h]; exact ⟨rfl, rfl⟩
  have harg : (DumpRequest (cloneRequest canon (DumpRequest req) (DumpRequest req).URL)).Proto
        = "HTTP/1.1" ∧
      (DumpRequest (cloneRequest canon (DumpRequest req) (DumpRequest req).URL)).ProtoMajor
        = 1 ∧
      (DumpRequest (cloneRequest canon (DumpRequest req) (DumpRequest req).URL)).ProtoMinor
        = 1 ∧
      (DumpRequest (cloneRequest canon (DumpRequest req) (DumpRequest req).URL)).Close
        = false ∧
      (DumpRequest (cloneRequest canon (DumpRequest req) (DumpRequest req).URL)).Method
        = req.Method ∧
      (DumpRequest (cloneRequest canon (DumpRequest req) (DumpRequest req).URL)).Header
        = copyHeaders canon [] req.Header ∧
      (DumpRequest (cloneRequest canon (DumpRequest req) (DumpRequest req).URL)).URL.Scheme
        = (if req.TLS = none then "http" else "https") ∧
      (DumpRequest (cloneRequest canon (DumpRequest req) (DumpRequest req).URL)).URL.Host
        = req.Host ∧
      (DumpRequest (cloneRequest canon (DumpRequest req) (DumpRequest req).URL)).URL.Opaque
        = req.RequestURI ∧
      (DumpRequest (cloneRequest canon (DumpRequest req) (DumpRequest req).URL)).URL.RawQuery
        = "" := by
    simp [DumpRequest, cloneRequest]
  refine ⟨DumpRequest (cloneRequest canon (DumpRequest req) (DumpRequest req).URL),
      (drainBody req.Body).calls ++
      [Event.Debugf "Forward Middleware received request:\n%s"] ++
      (drainBody (cloneRequest canon (DumpRequest req) (DumpRequest req).URL).Body).calls ++
      [Event.Debugf "Forward Middleware forwards request:\n%s"], ?_⟩
  cases hrt : f.roundTripper
      (DumpRequest (cloneRequest canon (DumpRequest req) (DumpRequest req).URL)) with
  | error err =>
    rw [ServeHTTP_of_error canon f w hdr req err hrt]
    refine ⟨[Event.Errorf "Error forwarding to %v, err: %v",
        Event.errHandler ReqRef.req { DumpRequest req with
          Body := (drainBody
            (cloneRequest canon (DumpRequest req) (DumpRequest req).URL).Body).rest } err],
      rfl, ?_, hpre, ?_, ?_, ?_, harg, ?_⟩
    · simp only [List.append_assoc, List.cons_append, List.nil_append]
    · intro e he
      simp only [List.mem_cons, List.mem_singleton, List.not_mem_nil, or_false] at he
      rcases he with h | h <;> rw [h] <;> rfl
    · intro err1 h1
      cases h1
      rfl
    · intro resp h1
      cases h1
    · simp [DumpRequest]
  | ok resp =>
    obtain ⟨info, hout⟩ := ServeHTTP_of_response canon f w hdr req resp hrt
    obtain ⟨ws, r, hio⟩ := ioCopy_only_writes w (drainBody resp.Body).field
      { header := copyHeaders canon hdr resp.Header,
        req := { DumpRequest req with
          Body := (drainBody
            (cloneRequest canon (DumpRequest req) (DumpRequest req).URL).Body).rest },
        trace := (drainBody req.Body).calls ++
          [Event.Debugf "Forward Middleware received request:\n%s"] ++
          (drainBody
            (cloneRequest canon (DumpRequest req) (DumpRequest req).URL).Body).calls ++
          [Event.Debugf "Forward Middleware forwards request:\n%s",
           Event.RoundTrip ReqRef.reqClone
            (DumpRequest (cloneRequest canon (DumpRequest req) (DumpRequest req).URL)),
           Event.Infof info] ++
          (drainBody resp.Body).calls ++
          [Event.Debugf "Forward Middleware received response:\n%s",
           Event.Header,
           Event.WriteHeader resp.StatusCode (copyHeaders canon hdr resp.Header)] }
    rw [hout, hio]
    refine ⟨[Event.Infof info] ++ (drainBody resp.Body).calls ++
        [Event.Debugf "Forward Middleware received response:\n%s", Event.Header,
         Event.WriteHeader resp.StatusCode (copyHeaders canon hdr resp.Header)] ++
        ws.map Event.Write ++
        (match r with
         | none => [Event.Panic "bytes.Buffer.WriteTo: invalid Write count"]
         | some _ => [Event.Debugf "TODO: Byte counting: %v\n",
             Event.Close (drainBody resp.Body).field.kind]),
      rfl, ?_, hpre, ?_, ?_, ?_, harg, ?_⟩
    · cases r <;> simp [World.emit]
    · intro e he
      simp only [List.mem_append, List.mem_cons, List.mem_singleton, List.mem_map,
        List.not_mem_nil, or_false] at he
      rcases he with (((h | h) | h | h | h) | ⟨c, _, h⟩) | h
      · rw [h]; rfl
      · exact drainBody_calls_isRoundTrip _ e h
      · rw [h]; rfl
      · rw [h]; rfl
      · rw [h]; rfl
      · rw [← h]; rfl
      · cases r with
        | none =>
          simp only [List.mem_singleton] at h
          rw [h]; rfl
        | some n =>
          simp only [List.mem_cons, List.mem_singleton, List.not_mem_nil, or_false] at h
          rcases h with h | h <;> rw [h] <;> rfl
    · intro err1 h1
      cases h1
    · intro resp1 h1
      cases h1
      refine ⟨by simp, ?_⟩
      intro e he
      simp only [List.mem_append, List.mem_cons, List.mem_singleton, List.mem_map,
        List.not_mem_nil, or_false] at he
      rcases he with (((h | h) | h | h | h) | ⟨c, _, h⟩) | h
      · rw [h]; rfl
      · exact drainBody_calls_isErrHandler _ e h
      · rw [h]; rfl
      · rw [h]; rfl
      · rw [h]; rfl
      · rw [← h]; rfl
      · cases r with
        | none =>
          simp only [List.mem_singleton] at h
          rw [h]; rfl
        | some n =>
          simp only [List.mem_cons, List.mem_singleton, List.not_mem_nil, or_false] at h
          rcases h with h | h <;> rw [h] <;> rfl
    · cases r <;> simp [World.emit, DumpRequest]

end forward

end HttpProxy
